import Mathlib

/-!
Shallow embedding of the work-order lifecycle and inventory-ledger subsystems of
`backend/turbo_server.py` (a FastAPI + MongoDB service).  Collections are lists of
records kept in insertion order; `find_one` is `List.find?`, `update_one` updates the
first matching record, `delete_one` removes the first matching record, and Mongo
`sort` is modelled with the stable `List.mergeSort`.  Timestamps (`datetime.utcnow`,
`date.today`) and generated UUIDs are passed in as explicit arguments.  Python ints
are `Int`, floats are carried as `Rat` (no claim depends on float rounding), and a
raised `HTTPException` aborts the handler with the database in whatever state the
writes so far left it, which each operation returns alongside the `Except` result.
-/

namespace TurboServer

/-- Status code and detail message of a raised HTTPException. -/
structure HTTPError where
  status : Nat
  detail : String
deriving Repr, DecidableEq

/-- The `WorkStatus` enum of the source. -/
inductive WorkStatus where
  | DRAFT
  | RECEIVED
  | IN_PROGRESS
  | QUOTED
  | ACCEPTED
  | REJECTED
  | WORKING
  | READY
  | DELIVERED
  | FINALIZED
deriving Repr, DecidableEq

/-- The `DocumentType` enum of the source. -/
inductive DocumentType where
  | IPOS
  | FACT_CHIT
  | FACT
  | BON_F
deriving Repr, DecidableEq

/-- The `NoteType` enum of the source. -/
inductive NoteType where
  | INFO
  | WARNING
  | CRITICAL
deriving Repr, DecidableEq

/-- `WorkOrderPart` model. -/
structure WorkOrderPart where
  part_id : String
  part_code : String
  category : String
  supplier : String
  price : Rat
  selected : Bool := false
deriving Repr, DecidableEq

/-- `WorkOrderProcess` model. -/
structure WorkOrderProcess where
  process_id : String
  process_name : String
  category : String
  estimated_time : Int
  price : Rat
  selected : Bool := false
  notes : String := ""
deriving Repr, DecidableEq

/-- `WorkOrder` model: one stored work-order document. -/
structure WorkOrder where
  id : String
  work_number : String
  work_sequence : Int := 0
  client_id : String
  vehicle_id : Option String := none
  turbo_code : String
  car_make : String := ""
  car_model : String := ""
  car_year : Option Int := none
  engine_code : Option String := some ""
  general_notes : String := ""
  received_date : Nat
  parts : List WorkOrderPart := []
  processes : List WorkOrderProcess := []
  status_passed : Bool := false
  status_refused : Bool := false
  cleaning_price : Rat := 170
  reconditioning_price : Rat := 170
  turbo_price : Rat := 240
  status : WorkStatus := WorkStatus.DRAFT
  is_finalized : Bool := false
  quote_sent : Bool := false
  quote_accepted : Bool := false
  estimated_completion : Option Nat := none
  documents_generated : List DocumentType := []
  finalized : Bool := false
  client_notified : Bool := false
  created_at : Nat
  updated_at : Nat
  finalized_at : Option Nat := none
deriving Repr, DecidableEq

/-- `WorkOrderCreate` request body. -/
structure WorkOrderCreate where
  client_id : String
  turbo_code : String
  car_make : String := ""
  car_model : String := ""
  car_year : Option Int := none
  engine_code : Option String := some ""
  general_notes : String := ""
deriving Repr, DecidableEq

/-- `WorkOrderUpdate` request body: every field optional, `none` meaning absent
(Python's `v is not None` filter makes an explicit null indistinguishable from
an omitted field). -/
structure WorkOrderUpdate where
  work_sequence : Option Int := none
  turbo_code : Option String := none
  car_make : Option String := none
  car_model : Option String := none
  car_year : Option Int := none
  engine_code : Option String := none
  general_notes : Option String := none
  parts : Option (List WorkOrderPart) := none
  processes : Option (List WorkOrderProcess) := none
  status_passed : Option Bool := none
  status_refused : Option Bool := none
  cleaning_price : Option Rat := none
  reconditioning_price : Option Rat := none
  turbo_price : Option Rat := none
  status : Option WorkStatus := none
  is_finalized : Option Bool := none
  quote_sent : Option Bool := none
  quote_accepted : Option Bool := none
  estimated_completion : Option Nat := none
  finalized : Option Bool := none
  client_notified : Option Bool := none
  finalized_at : Option Nat := none
deriving Repr, DecidableEq

/-- `Client` model. -/
structure Client where
  id : String
  name : String
  phone : String
  email : Option String := some ""
  address : Option String := some ""
  company_name : Option String := some ""
  tax_number : Option String := some ""
  notes : Option String := some ""
  created_at : Nat
  updated_at : Nat
deriving Repr, DecidableEq

/-- `TurboNote` model. -/
structure TurboNote where
  id : String
  turbo_code : String
  note_type : NoteType := NoteType.INFO
  title : String
  description : String
  created_by : String := "System"
  created_at : Nat
  active : Bool := true
deriving Repr, DecidableEq

/-- `CarNote` model. -/
structure CarNote where
  id : String
  car_make : String
  car_model : String
  engine_code : Option String := some ""
  note_type : NoteType := NoteType.INFO
  title : String
  description : String
  created_by : String := "System"
  created_at : Nat
  active : Bool := true
deriving Repr, DecidableEq

/-- `WorkOrderWithDetails` projection returned by the work-order list endpoint. -/
structure WorkOrderWithDetails where
  id : String
  work_number : String
  client_name : String
  client_phone : String
  car_info : String
  turbo_code : String
  received_date : Nat
  status : WorkStatus
  total_amount : Rat
  estimated_completion : Option Nat
  has_turbo_warning : Bool := false
  has_car_warning : Bool := false
  created_at : Nat
deriving Repr, DecidableEq

/-- `InventoryItem` model. -/
structure InventoryItem where
  id : String
  name : String
  code : String
  category : String := "general"
  current_stock : Int := 0
  min_stock : Int := 0
  max_stock : Int := 1000
  unit : String := "db"
  location : Option String := some ""
  supplier : Option String := some ""
  purchase_price : Rat := 0
  notes : Option String := some ""
  active : Bool := true
  created_at : Nat
  updated_at : Nat
deriving Repr, DecidableEq

/-- `InventoryMovement` model: an immutable stock-change audit record. -/
structure InventoryMovement where
  id : String
  item_id : String
  movement_type : String
  quantity : Int
  reason : String
  reference : Option String := some ""
  notes : Option String := some ""
  created_by : String := "System"
  created_at : Nat
  stock_before : Int := 0
  stock_after : Int := 0
deriving Repr, DecidableEq

/-- `InventoryMovementCreate` request body. -/
structure InventoryMovementCreate where
  item_id : String
  movement_type : String
  quantity : Int
  reason : String
  reference : Option String := some ""
  notes : Option String := some ""
deriving Repr, DecidableEq

/-- The document store: one list per collection used by the modelled endpoints,
kept in insertion order. -/
structure DB where
  work_orders : List WorkOrder := []
  clients : List Client := []
  turbo_notes : List TurboNote := []
  car_notes : List CarNote := []
  inventory_items : List InventoryItem := []
  inventory_movements : List InventoryMovement := []
deriving Repr, DecidableEq

/-- Mongo `update_one`: rewrite the first record matching `p` with `f`, leaving
everything else in place. -/
def updateOne (p : α → Bool) (f : α → α) : List α → List α
  | [] => []
  | x :: xs => if p x then f x :: xs else x :: updateOne p f xs

/-- Mongo `delete_one`: remove the first record matching `p`; the first component
is the resulting `deleted_count` (0 or 1). -/
def deleteOneCount (p : α → Bool) : List α → Nat × List α
  | [] => (0, [])
  | x :: xs =>
    if p x then (1, xs)
    else
      let r := deleteOneCount p xs
      (r.1, x :: r.2)

/-- Python's `f"{i:05d}"`: decimal rendering left-padded with zeros to width 5
(a minus sign counts toward the width, larger numbers are not truncated). -/
def pythonFmt05 (i : Int) : String :=
  if i < 0 then
    let s := toString (-i)
    "-" ++ String.mk (List.replicate (4 - s.length) '0') ++ s
  else
    let s := toString i
    String.mk (List.replicate (5 - s.length) '0') ++ s

/-- Comparator for `sort("work_sequence", -1)` (descending). -/
def seqDesc (a b : WorkOrder) : Bool := decide (b.work_sequence ≤ a.work_sequence)

/-- Comparator for `sort("created_at", 1)` (ascending). -/
def createdAsc (a b : WorkOrder) : Bool := decide (a.created_at ≤ b.created_at)

/-- Comparator for the list endpoint's `sort("created_at", -1)` (descending),
applied to (work order, joined client) rows. -/
def createdDescRow (a b : WorkOrder × Client) : Bool :=
  decide (b.1.created_at ≤ a.1.created_at)

/-- `get_next_sequence_number`: highest existing `work_sequence` plus one
(`sort("work_sequence", -1).limit(1)`), or 1 when no work order exists. -/
def get_next_sequence_number (wos : List WorkOrder) : Int :=
  match (wos.mergeSort seqDesc).take 1 with
  | r :: _ => r.work_sequence + 1
  | [] => 1

/-- The `$set` document of the renumbering pass: position `i` (1-based) becomes
the sequence, its 5-padded rendering the work number, `updated_at` is refreshed. -/
def renumUpd (now : Nat) (i : Nat) (w : WorkOrder) : WorkOrder :=
  { w with
    work_sequence := (i : Int)
    work_number := pythonFmt05 (i : Int)
    updated_at := now }

/-- `recalculate_sequence_numbers`: fetch the remaining work orders sorted by
`created_at` ascending (the driver call `to_list(1000)` returns at most 1000
documents), then `update_one` each of them with its 1-based position. -/
def recalculate_sequence_numbers (now : Nat) (wos : List WorkOrder) : List WorkOrder :=
  let fetched := (wos.mergeSort createdAsc).take 1000
  (List.enumFrom 1 fetched).foldl
    (fun acc iw => updateOne (fun r => r.id == iw.2.id) (renumUpd now iw.1) acc)
    wos

/-- `POST /work-orders`: `create_work_order`.  `newId` is the generated UUID,
`now` the operation timestamp, `today` the received date. -/
def create_work_order (db : DB) (input : WorkOrderCreate) (newId : String)
    (now : Nat) (today : Nat) : Except HTTPError WorkOrder × DB :=
  match db.clients.find? (fun c => c.id == input.client_id) with
  | none => (.error ⟨400, "Ügyfél nem található"⟩, db)
  | some _ =>
    let next_sequence := get_next_sequence_number db.work_orders
    let work_number := pythonFmt05 next_sequence
    let wo : WorkOrder :=
      { id := newId
        work_number := work_number
        work_sequence := next_sequence
        client_id := input.client_id
        turbo_code := input.turbo_code
        car_make := input.car_make
        car_model := input.car_model
        car_year := input.car_year
        engine_code := input.engine_code
        general_notes := input.general_notes
        received_date := today
        status := WorkStatus.DRAFT
        created_at := now
        updated_at := now }
    (.ok wo, { db with work_orders := db.work_orders ++ [wo] })

/-- Merge of the non-null fields of a `WorkOrderUpdate` into a stored record
(the `$set` of the dict-comprehension in `update_work_order`, minus the
`updated_at` refresh which the endpoint adds separately). -/
def applyUpdateData (u : WorkOrderUpdate) (wo : WorkOrder) : WorkOrder :=
  { wo with
    work_sequence := u.work_sequence.getD wo.work_sequence
    turbo_code := u.turbo_code.getD wo.turbo_code
    car_make := u.car_make.getD wo.car_make
    car_model := u.car_model.getD wo.car_model
    car_year := match u.car_year with | some v => some v | none => wo.car_year
    engine_code := match u.engine_code with | some v => some v | none => wo.engine_code
    general_notes := u.general_notes.getD wo.general_notes
    parts := u.parts.getD wo.parts
    processes := u.processes.getD wo.processes
    status_passed := u.status_passed.getD wo.status_passed
    status_refused := u.status_refused.getD wo.status_refused
    cleaning_price := u.cleaning_price.getD wo.cleaning_price
    reconditioning_price := u.reconditioning_price.getD wo.reconditioning_price
    turbo_price := u.turbo_price.getD wo.turbo_price
    status := u.status.getD wo.status
    is_finalized := u.is_finalized.getD wo.is_finalized
    quote_sent := u.quote_sent.getD wo.quote_sent
    quote_accepted := u.quote_accepted.getD wo.quote_accepted
    estimated_completion :=
      match u.estimated_completion with | some v => some v | none => wo.estimated_completion
    finalized := u.finalized.getD wo.finalized
    client_notified := u.client_notified.getD wo.client_notified
    finalized_at := match u.finalized_at with | some v => some v | none => wo.finalized_at }

/-- True when the update payload supplies at least one field, i.e. when the
Python dict comprehension is non-empty and a write is issued. -/
def hasAnyField (u : WorkOrderUpdate) : Bool :=
  u.work_sequence.isSome || u.turbo_code.isSome || u.car_make.isSome ||
  u.car_model.isSome || u.car_year.isSome || u.engine_code.isSome ||
  u.general_notes.isSome || u.parts.isSome || u.processes.isSome ||
  u.status_passed.isSome || u.status_refused.isSome || u.cleaning_price.isSome ||
  u.reconditioning_price.isSome || u.turbo_price.isSome || u.status.isSome ||
  u.is_finalized.isSome || u.quote_sent.isSome || u.quote_accepted.isSome ||
  u.estimated_completion.isSome || u.finalized.isSome || u.client_notified.isSome ||
  u.finalized_at.isSome

/-- `PUT /work-orders/{id}`: `update_work_order`.  The unreachable re-fetch
failure (the record vanished between the write and the read-back, a `TypeError`
in Python) surfaces as a 500. -/
def update_work_order (db : DB) (now : Nat) (woId : String) (u : WorkOrderUpdate) :
    Except HTTPError WorkOrder × DB :=
  match db.work_orders.find? (fun r => r.id == woId) with
  | none => (.error ⟨404, "Munkalap nem található"⟩, db)
  | some _ =>
    let wos :=
      if hasAnyField u then
        updateOne (fun r => r.id == woId)
          (fun r => { applyUpdateData u r with updated_at := now }) db.work_orders
      else db.work_orders
    let db := { db with work_orders := wos }
    match wos.find? (fun r => r.id == woId) with
    | some updated => (.ok updated, db)
    | none => (.error ⟨500, "Internal Server Error"⟩, db)

/-- `DELETE /work-orders/{id}`: `delete_work_order` — refuse when finalized,
otherwise delete and run the full renumbering pass. -/
def delete_work_order (db : DB) (now : Nat) (woId : String) :
    Except HTTPError String × DB :=
  match db.work_orders.find? (fun r => r.id == woId) with
  | none => (.error ⟨404, "Munkalap nem található"⟩, db)
  | some wo =>
    if wo.is_finalized then
      (.error ⟨400, "Véglegesített munkalapot nem lehet törölni!"⟩, db)
    else
      let res := deleteOneCount (fun r => r.id == woId) db.work_orders
      if res.1 == 0 then (.error ⟨404, "Munkalap nem található"⟩, { db with work_orders := res.2 })
      else
        (.ok "Munkalap törölve és számozás frissítve",
          { db with work_orders := recalculate_sequence_numbers now res.2 })

/-- `POST /work-orders/{id}/finalize`: `finalize_work_order`. -/
def finalize_work_order (db : DB) (now : Nat) (woId : String) :
    Except HTTPError WorkOrder × DB :=
  match db.work_orders.find? (fun r => r.id == woId) with
  | none => (.error ⟨404, "Munkalap nem található"⟩, db)
  | some wo =>
    if wo.is_finalized then
      (.error ⟨400, "A munkalap már véglegesítve van"⟩, db)
    else
      let wos :=
        updateOne (fun r => r.id == woId)
          (fun r => { r with
            is_finalized := true
            finalized_at := some now
            updated_at := now
            status := WorkStatus.RECEIVED }) db.work_orders
      let db := { db with work_orders := wos }
      match wos.find? (fun r => r.id == woId) with
      | some updated => (.ok updated, db)
      | none => (.error ⟨500, "Internal Server Error"⟩, db)

/-- `POST /work-orders/{id}/unfinalize`: `unfinalize_work_order` — no
finalized-state precondition. -/
def unfinalize_work_order (db : DB) (now : Nat) (woId : String) :
    Except HTTPError WorkOrder × DB :=
  match db.work_orders.find? (fun r => r.id == woId) with
  | none => (.error ⟨404, "Munkalap nem található"⟩, db)
  | some _ =>
    let wos :=
      updateOne (fun r => r.id == woId)
        (fun r => { r with
          is_finalized := false
          finalized_at := none
          updated_at := now
          status := WorkStatus.DRAFT }) db.work_orders
    let db := { db with work_orders := wos }
    match wos.find? (fun r => r.id == woId) with
    | some updated => (.ok updated, db)
    | none => (.error ⟨500, "Internal Server Error"⟩, db)

/-- The `$concat` producing `car_info` (before the endpoint's final `strip`). -/
def carInfoOf (wo : WorkOrder) : String :=
  wo.car_make ++ " " ++ wo.car_model ++
    (match wo.car_year with
     | some y => " (" ++ toString y ++ ")"
     | none => "")

/-- One row of the list projection: joined client data, derived `car_info` and
`total_amount`, and the two warning flags — each true when the `$lookup` on the
note collection found at least one note with the matching key (no condition on
the note's `active` flag appears in the pipeline). -/
def mkListedRow (db : DB) (wo : WorkOrder) (c : Client) : WorkOrderWithDetails :=
  let turbo_warnings := db.turbo_notes.filter (fun n => n.turbo_code == wo.turbo_code)
  let car_warnings :=
    db.car_notes.filter (fun n => n.car_make == wo.car_make && n.car_model == wo.car_model)
  { id := wo.id
    work_number := wo.work_number
    client_name := c.name
    client_phone := c.phone
    car_info := (carInfoOf wo).trim
    turbo_code := wo.turbo_code
    received_date := wo.received_date
    status := wo.status
    total_amount := wo.cleaning_price + wo.reconditioning_price + wo.turbo_price
    estimated_completion := wo.estimated_completion
    has_turbo_warning := decide (0 < turbo_warnings.length)
    has_car_warning := decide (0 < car_warnings.length)
    created_at := wo.created_at }

/-- `GET /work-orders`: `get_work_orders` — `$lookup`/`$unwind` on clients (rows
without a matching client are dropped, one row per matching client), warning
flags, optional status / client-id equality filters, `created_at` descending
sort and the `to_list(1000)` cap.  The case-insensitive `search` regex filter
is not modelled (no modelled claim mentions it); the calls of interest pass it
as absent, in which case the pipeline adds no clause for it. -/
def get_work_orders (db : DB) (status? : Option WorkStatus) (clientId? : Option String) :
    List WorkOrderWithDetails :=
  let rows : List (WorkOrder × Client) := db.work_orders.flatMap
    (fun wo => (db.clients.filter (fun c => c.id == wo.client_id)).map (fun c => (wo, c)))
  let rows : List (WorkOrder × Client) :=
    match status? with
    | some st => rows.filter (fun r => r.1.status == st)
    | none => rows
  let rows : List (WorkOrder × Client) :=
    match clientId? with
    | some cid => rows.filter (fun r => r.1.client_id == cid)
    | none => rows
  ((rows.mergeSort createdDescRow).take 1000).map (fun r => mkListedRow db r.1 r.2)

/-- `POST /inventory/movements`: `create_inventory_movement` — flip the sign of
a positive OUT quantity, refuse when the stock would go negative, otherwise
append the movement record and then write the item's new stock. -/
def create_inventory_movement (db : DB) (input : InventoryMovementCreate)
    (newId : String) (now : Nat) : Except HTTPError InventoryMovement × DB :=
  match db.inventory_items.find? (fun it => it.id == input.item_id) with
  | none => (.error ⟨404, "Alkatrész nem található"⟩, db)
  | some item =>
    let stock_before := item.current_stock
    let quantity :=
      if input.movement_type == "OUT" && decide (0 < input.quantity) then -input.quantity
      else input.quantity
    let stock_after := stock_before + quantity
    if stock_after < 0 then
      (.error ⟨400, "Nincs elegendő készlet. Jelenlegi: " ++ toString stock_before ++
        ", kért: " ++ toString quantity.natAbs⟩, db)
    else
      let mv : InventoryMovement :=
        { id := newId
          item_id := input.item_id
          movement_type := input.movement_type
          quantity := quantity
          reason := input.reason
          reference := input.reference
          notes := input.notes
          created_at := now
          stock_before := stock_before
          stock_after := stock_after }
      let db := { db with inventory_movements := db.inventory_movements ++ [mv] }
      let db :=
        { db with
          inventory_items :=
            updateOne (fun it => it.id == input.item_id)
              (fun it => { it with current_stock := stock_after, updated_at := now })
              db.inventory_items }
      (.ok mv, db)

/-- Run a batch of movement requests in order (each with its generated id and
timestamp), keeping only the database state. -/
def processMovements (db : DB) : List (InventoryMovementCreate × String × Nat) → DB
  | [] => db
  | r :: rs => processMovements (create_inventory_movement db r.1 r.2.1 r.2.2).2 rs

/-! ### Generic lemmas about the document-store primitives -/

/-- `find_one` success splits the collection at the first match. -/
theorem find?_split {p : α → Bool} :
    ∀ {l : List α} {w : α}, l.find? p = some w →
      ∃ pre post, l = pre ++ w :: post ∧ ∀ x ∈ pre, p x = false := by
  intro l
  induction l with
  | nil => intro w h; simp at h
  | cons x xs ih =>
    intro w h
    cases hx : p x with
    | true =>
      rw [List.find?_cons_of_pos _ hx] at h
      cases h
      exact ⟨[], xs, rfl, by simp⟩
    | false =>
      rw [List.find?_cons_of_neg _ (by simp [hx])] at h
      obtain ⟨pre, post, rfl, hall⟩ := ih h
      refine ⟨x :: pre, post, rfl, ?_⟩
      intro y hy
      rcases List.mem_cons.mp hy with rfl | hy
      · exact hx
      · exact hall y hy

/-- `update_one` rewrites exactly the record at the first match. -/
theorem updateOne_split {p : α → Bool} {f : α → α} (w : α) :
    ∀ (pre post : List α), (∀ x ∈ pre, p x = false) → p w = true →
      updateOne p f (pre ++ w :: post) = pre ++ f w :: post := by
  intro pre
  induction pre with
  | nil => intro post _ hw; simp [updateOne, hw]
  | cons x xs ih =>
    intro post hpre hw
    have hx : p x = false := hpre x (by simp)
    simp only [List.cons_append, updateOne, hx]
    simp [ih post (fun y hy => hpre y (by simp [hy])) hw]

/-- `find_one` skips a prefix that contains no match. -/
theorem find?_append_of_none {p : α → Bool} :
    ∀ (pre l : List α), (∀ x ∈ pre, p x = false) →
      (pre ++ l).find? p = l.find? p := by
  intro pre
  induction pre with
  | nil => intro l _; rfl
  | cons x xs ih =>
    intro l hpre
    have hx : p x = false := hpre x (by simp)
    simp only [List.cons_append]
    rw [List.find?_cons_of_neg _ (by simp [hx])]
    exact ih l (fun y hy => hpre y (by simp [hy]))

/-- Re-fetching after `update_one` returns the rewritten first match, provided
the rewrite still satisfies the search predicate. -/
theorem updateOne_find?_first {p : α → Bool} {f : α → α} {l : List α} {w : α}
    (hfind : l.find? p = some w) (hpf : p (f w) = true) :
    (updateOne p f l).find? p = some (f w) := by
  obtain ⟨pre, post, rfl, hpre⟩ := find?_split hfind
  have hw : p w = true := by
    have h := List.find?_some hfind
    simpa using h
  rw [updateOne_split w pre post hpre hw, find?_append_of_none pre _ hpre]
  exact List.find?_cons_of_pos _ hpf

/-- `delete_one` removes exactly the record at the first match and reports
`deleted_count = 1`. -/
theorem deleteOneCount_split {p : α → Bool} (w : α) :
    ∀ (pre post : List α), (∀ x ∈ pre, p x = false) → p w = true →
      deleteOneCount p (pre ++ w :: post) = (1, pre ++ post) := by
  intro pre
  induction pre with
  | nil => intro post _ hw; simp [deleteOneCount, hw]
  | cons x xs ih =>
    intro post hpre hw
    have hx : p x = false := hpre x (by simp)
    simp only [List.cons_append, deleteOneCount, hx]
    simp [ih post (fun y hy => hpre y (by simp [hy])) hw]

/-- Every element of an updated collection is an old element or the image of one. -/
theorem mem_updateOne {p : α → Bool} {f : α → α} :
    ∀ {l : List α} {x : α}, x ∈ updateOne p f l → x ∈ l ∨ ∃ y ∈ l, x = f y := by
  intro l
  induction l with
  | nil => intro x h; simp [updateOne] at h
  | cons a as ih =>
    intro x h
    by_cases ha : p a
    · simp only [updateOne, if_pos ha] at h
      rcases List.mem_cons.mp h with rfl | h
      · exact Or.inr ⟨a, by simp⟩
      · exact Or.inl (by simp [h])
    · simp only [updateOne, if_neg ha] at h
      rcases List.mem_cons.mp h with rfl | h
      · exact Or.inl (by simp)
      · rcases ih h with h | ⟨y, hy, rfl⟩
        · exact Or.inl (by simp [h])
        · exact Or.inr ⟨y, by simp [hy]⟩

/-- A projection untouched by the rewriting function is untouched by `update_one`. -/
theorem map_updateOne_eq {p : α → Bool} {f : α → α} (g : α → β)
    (hg : ∀ x, g (f x) = g x) :
    ∀ l : List α, (updateOne p f l).map g = l.map g := by
  intro l
  induction l with
  | nil => rfl
  | cons a as ih =>
    by_cases ha : p a
    · simp [updateOne, ha, hg]
    · simp [updateOne, ha, ih]

/-! ### Characterisation of `get_next_sequence_number` -/

/-- `get_next_sequence_number` returns one plus the maximum existing sequence. -/
theorem get_next_sequence_number_eq {wos : List WorkOrder} {M : Int}
    (hmem : ∃ w ∈ wos, w.work_sequence = M)
    (hub : ∀ v ∈ wos, v.work_sequence ≤ M) :
    get_next_sequence_number wos = M + 1 := by
  obtain ⟨w, hw, rfl⟩ := hmem
  have hsorted : (wos.mergeSort seqDesc).Pairwise (fun a b => seqDesc a b = true) :=
    List.sorted_mergeSort
      (fun a b c hab hbc => by
        simp only [seqDesc, decide_eq_true_eq] at *
        omega)
      (fun a b => by
        simp only [seqDesc]
        by_cases h : b.work_sequence ≤ a.work_sequence
        · simp [h]
        · simp [le_of_not_le h])
      wos
  cases hms : wos.mergeSort seqDesc with
  | nil =>
    have : w ∈ wos.mergeSort seqDesc := List.mem_mergeSort.mpr hw
    rw [hms] at this
    simp at this
  | cons h t =>
    have hhd : h ∈ wos := List.mem_mergeSort.mp (by rw [hms]; simp)
    have hle : h.work_sequence ≤ w.work_sequence := hub h hhd
    have hge : w.work_sequence ≤ h.work_sequence := by
      have hwms : w ∈ wos.mergeSort seqDesc := List.mem_mergeSort.mpr hw
      rw [hms] at hwms
      rcases List.mem_cons.mp hwms with rfl | hwt
      · exact le_refl _
      · have := (List.pairwise_cons.mp (hms ▸ hsorted)).1 w hwt
        simpa [seqDesc] using this
    have : h.work_sequence = w.work_sequence := le_antisymm hle hge
    simp [get_next_sequence_number, hms, this]

/-! ### C2: creation assigns max+1 and binds the padded work number -/

/-- C2: creating a work order with an existing client appends a record whose
`work_sequence` is one plus the maximum existing sequence (1 when no order
exists), whose `work_number` is that sequence rendered by the zero-padding
format, with status `DRAFT` and `is_finalized` false. -/
theorem C2_create_sequence_and_number (db : DB) (input : WorkOrderCreate)
    (newId : String) (now today : Nat) (c : Client)
    (hclient : db.clients.find? (fun cl => cl.id == input.client_id) = some c) :
    ∃ wo, create_work_order db input newId now today =
        (.ok wo, { db with work_orders := db.work_orders ++ [wo] }) ∧
      wo.status = WorkStatus.DRAFT ∧
      wo.is_finalized = false ∧
      wo.work_number = pythonFmt05 wo.work_sequence ∧
      (db.work_orders = [] → wo.work_sequence = 1) ∧
      (∀ M : Int, (∃ w ∈ db.work_orders, w.work_sequence = M) →
        (∀ v ∈ db.work_orders, v.work_sequence ≤ M) →
        wo.work_sequence = M + 1) := by
  simp only [create_work_order, hclient]
  refine ⟨_, rfl, rfl, rfl, rfl, ?_, ?_⟩
  · intro hempty
    simp [get_next_sequence_number, hempty]
  · intro M hmem hub
    exact get_next_sequence_number_eq hmem hub

/-- Witness for C2 at a concrete database: one client, one existing order with
sequence 3; creation yields sequence 4 and work number "00004". -/
def clientW : Client :=
  { id := "c1", name := "N", phone := "P", created_at := 0, updated_at := 0 }

/-- Concrete existing work order used by witnesses (sequence 3, not finalized). -/
def woW : WorkOrder :=
  { id := "w1", work_number := "00003", work_sequence := 3, client_id := "c1"
    turbo_code := "T", received_date := 0, created_at := 0, updated_at := 0 }

/-- Concrete database used by witnesses. -/
def dbW : DB := { work_orders := [woW], clients := [clientW] }

/-- Concrete creation payload used by witnesses. -/
def inputW : WorkOrderCreate := { client_id := "c1", turbo_code := "T2" }

theorem C2_create_sequence_and_number_witness :
    dbW.clients.find? (fun cl => cl.id == inputW.client_id) = some clientW ∧
    ∃ wo, create_work_order dbW inputW "w2" 5 5 =
        (.ok wo, { dbW with work_orders := dbW.work_orders ++ [wo] }) ∧
      wo.status = WorkStatus.DRAFT ∧
      wo.is_finalized = false ∧
      wo.work_number = pythonFmt05 wo.work_sequence ∧
      (dbW.work_orders = [] → wo.work_sequence = 1) ∧
      (∀ M : Int, (∃ w ∈ dbW.work_orders, w.work_sequence = M) →
        (∀ v ∈ dbW.work_orders, v.work_sequence ≤ M) →
        wo.work_sequence = M + 1) :=
  ⟨by rfl, C2_create_sequence_and_number dbW inputW "w2" 5 5 clientW (by rfl)⟩

/-! ### C3: deleting a finalized work order fails and writes nothing -/

/-- C3: when the targeted work order is finalized, delete fails with the 400
Conflict error and returns the database exactly as it was — the target, every
other work order and all sequence numbers are untouched and no renumbering
pass runs. -/
theorem C3_delete_finalized_is_conflict (db : DB) (now : Nat) (woId : String)
    (wo : WorkOrder)
    (hfind : db.work_orders.find? (fun r => r.id == woId) = some wo)
    (hfin : wo.is_finalized = true) :
    delete_work_order db now woId =
      (.error ⟨400, "Véglegesített munkalapot nem lehet törölni!"⟩, db) := by
  simp [delete_work_order, hfind, hfin]

theorem C3_delete_finalized_is_conflict_witness :
    ({ dbW with work_orders := [{ woW with is_finalized := true }] } : DB).work_orders.find?
        (fun r => r.id == "w1") = some { woW with is_finalized := true } ∧
    ({ woW with is_finalized := true }).is_finalized = true ∧
    delete_work_order { dbW with work_orders := [{ woW with is_finalized := true }] } 9 "w1" =
      (.error ⟨400, "Véglegesített munkalapot nem lehet törölni!"⟩,
        { dbW with work_orders := [{ woW with is_finalized := true }] }) :=
  ⟨by rfl, by rfl,
    C3_delete_finalized_is_conflict _ 9 "w1" _ (by rfl) (by rfl)⟩

/-! ### C7: creating with an unknown client -/

/-- C7 (amended): when the client reference resolves to no client, creation
fails with HTTP 400 (message "Ügyfél nem található") and inserts nothing: the
database is returned exactly as it was. -/
theorem C7_create_unknown_client_rejected (db : DB) (input : WorkOrderCreate)
    (newId : String) (now today : Nat)
    (hclient : db.clients.find? (fun c => c.id == input.client_id) = none) :
    create_work_order db input newId now today =
      (.error ⟨400, "Ügyfél nem található"⟩, db) := by
  simp [create_work_order, hclient]

theorem C7_create_unknown_client_rejected_witness :
    (({} : DB).clients.find? (fun c => c.id == inputW.client_id) = none) ∧
    create_work_order {} inputW "w9" 0 0 = (.error ⟨400, "Ügyfél nem található"⟩, {}) :=
  ⟨by rfl, C7_create_unknown_client_rejected {} inputW "w9" 0 0 (by rfl)⟩

/-- C7 counterexample: at the concrete empty database the failure status is
400, not the 404 the claim requires, and no record is inserted. -/
theorem C7_counterexample :
    (create_work_order {} inputW "w9" 0 0).1 = .error ⟨400, "Ügyfél nem található"⟩ ∧
    (400 : Nat) ≠ 404 ∧
    (create_work_order {} inputW "w9" 0 0).2 = ({} : DB) :=
  ⟨by rfl, by decide, by rfl⟩

/-! ### C5: finalize -/

/-- C5: finalize fails with the already-finalized Conflict (database untouched)
when `is_finalized` is set; otherwise it sets `is_finalized`, stamps
`finalized_at` and `updated_at` with now, and forces status to `RECEIVED`
whatever the prior status was, rewriting only the targeted record. -/
theorem C5_finalize_behaviour (db : DB) (now : Nat) (woId : String) (wo : WorkOrder)
    (hfind : db.work_orders.find? (fun r => r.id == woId) = some wo) :
    (wo.is_finalized = true →
      finalize_work_order db now woId =
        (.error ⟨400, "A munkalap már véglegesítve van"⟩, db)) ∧
    (wo.is_finalized = false →
      ∃ wo', (finalize_work_order db now woId).1 = .ok wo' ∧
        wo'.is_finalized = true ∧
        wo'.finalized_at = some now ∧
        wo'.status = WorkStatus.RECEIVED ∧
        wo'.updated_at = now ∧
        wo'.id = wo.id ∧
        wo'.work_number = wo.work_number ∧
        wo'.work_sequence = wo.work_sequence ∧
        ∃ pre post, db.work_orders = pre ++ wo :: post ∧
          (finalize_work_order db now woId).2 =
            { db with work_orders := pre ++ wo' :: post }) := by
  constructor
  · intro hfin
    simp [finalize_work_order, hfind, hfin]
  · intro hnf
    obtain ⟨pre, post, hsplit, hpre⟩ := find?_split hfind
    have hp : (wo.id == woId) = true := by
      have h := List.find?_some hfind
      simpa using h
    set f : WorkOrder → WorkOrder := fun r =>
      { r with
        is_finalized := true
        finalized_at := some now
        updated_at := now
        status := WorkStatus.RECEIVED } with hf
    have hupd : updateOne (fun r : WorkOrder => r.id == woId) f db.work_orders =
        pre ++ f wo :: post := by
      rw [hsplit]
      exact updateOne_split wo pre post hpre hp
    have hrefetch : (pre ++ f wo :: post).find? (fun r : WorkOrder => r.id == woId) =
        some (f wo) := by
      rw [find?_append_of_none pre _ hpre]
      exact List.find?_cons_of_pos _ (by simpa [hf] using hp)
    refine ⟨f wo, ?_, rfl, rfl, rfl, rfl, rfl, rfl, rfl, pre, post, hsplit, ?_⟩
    · simp only [finalize_work_order, hfind, hnf, Bool.false_eq_true, if_false, hupd, hrefetch]
    · simp only [finalize_work_order, hfind, hnf, Bool.false_eq_true, if_false, hupd, hrefetch]

theorem C5_finalize_behaviour_witness :
    dbW.work_orders.find? (fun r => r.id == "w1") = some woW ∧
    ((woW.is_finalized = true →
      finalize_work_order dbW 7 "w1" =
        (.error ⟨400, "A munkalap már véglegesítve van"⟩, dbW)) ∧
    (woW.is_finalized = false →
      ∃ wo', (finalize_work_order dbW 7 "w1").1 = .ok wo' ∧
        wo'.is_finalized = true ∧
        wo'.finalized_at = some 7 ∧
        wo'.status = WorkStatus.RECEIVED ∧
        wo'.updated_at = 7 ∧
        wo'.id = woW.id ∧
        wo'.work_number = woW.work_number ∧
        wo'.work_sequence = woW.work_sequence ∧
        ∃ pre post, dbW.work_orders = pre ++ woW :: post ∧
          (finalize_work_order dbW 7 "w1").2 =
            { dbW with work_orders := pre ++ wo' :: post })) :=
  ⟨by rfl, C5_finalize_behaviour dbW 7 "w1" woW (by rfl)⟩

/-! ### C6 / C9: the generic partial-update endpoint -/

/-- The rewriting function applied by `update_work_order` when at least one
field is supplied. -/
def updFn (u : WorkOrderUpdate) (now : Nat) (r : WorkOrder) : WorkOrder :=
  { applyUpdateData u r with updated_at := now }

/-- Shared shape analysis of `update_work_order` on a found record: the
endpoint answers with the merged record and rewrites exactly the first match,
or answers with the unchanged record and leaves the database alone when the
payload is empty. -/
theorem update_work_order_eq (db : DB) (now : Nat) (woId : String)
    (u : WorkOrderUpdate) (wo : WorkOrder)
    (hfind : db.work_orders.find? (fun r => r.id == woId) = some wo) :
    ∃ pre post, db.work_orders = pre ++ wo :: post ∧ (∀ x ∈ pre, (x.id == woId) = false) ∧
      (hasAnyField u = true →
        update_work_order db now woId u =
          (.ok (updFn u now wo), { db with work_orders := pre ++ updFn u now wo :: post })) ∧
      (hasAnyField u = false →
        update_work_order db now woId u = (.ok wo, db)) := by
  obtain ⟨pre, post, hsplit, hpre⟩ := find?_split hfind
  have hp : (wo.id == woId) = true := by
    have h := List.find?_some hfind
    simpa using h
  refine ⟨pre, post, hsplit, hpre, ?_, ?_⟩
  · intro hany
    set f : WorkOrder → WorkOrder :=
      fun r => { applyUpdateData u r with updated_at := now } with hf
    have hupd : updateOne (fun r : WorkOrder => r.id == woId) f db.work_orders =
        pre ++ f wo :: post := by
      rw [hsplit]
      exact updateOne_split wo pre post hpre hp
    have hrefetch : (pre ++ f wo :: post).find? (fun r : WorkOrder => r.id == woId) =
        some (f wo) := by
      rw [find?_append_of_none pre _ hpre]
      exact List.find?_cons_of_pos _ hp
    simp only [update_work_order, hfind, hany, if_true, hupd, hrefetch]
    rfl
  · intro hnone
    simp only [update_work_order, hfind, hnone, Bool.false_eq_true, if_false]

set_option maxHeartbeats 1600000 in
/-- C6 (amended): partial update never mutates `work_number` — it is absent
from the update payload model, so the whole column is preserved and the
returned record keeps its number — but a supplied `work_sequence` IS applied
by the generic field-merge; every other supplied field is applied, unsupplied
fields are left untouched, and `updated_at` is refreshed exactly when some
field was supplied. -/
theorem C6_update_protects_number_not_sequence (db : DB) (now : Nat)
    (woId : String) (u : WorkOrderUpdate) (wo : WorkOrder)
    (hfind : db.work_orders.find? (fun r => r.id == woId) = some wo) :
    ∃ wo', (update_work_order db now woId u).1 = .ok wo' ∧
      (update_work_order db now woId u).2.work_orders.map (fun r => r.work_number) =
        db.work_orders.map (fun r => r.work_number) ∧
      wo'.work_number = wo.work_number ∧
      wo'.id = wo.id ∧
      (∀ v, u.work_sequence = some v → wo'.work_sequence = v) ∧
      (u.work_sequence = none → wo'.work_sequence = wo.work_sequence) ∧
      (∀ v, u.turbo_code = some v → wo'.turbo_code = v) ∧
      (u.turbo_code = none → wo'.turbo_code = wo.turbo_code) ∧
      (∀ v, u.car_make = some v → wo'.car_make = v) ∧
      (u.car_make = none → wo'.car_make = wo.car_make) ∧
      (∀ v, u.car_model = some v → wo'.car_model = v) ∧
      (u.car_model = none → wo'.car_model = wo.car_model) ∧
      (∀ v, u.car_year = some v → wo'.car_year = some v) ∧
      (u.car_year = none → wo'.car_year = wo.car_year) ∧
      (∀ v, u.engine_code = some v → wo'.engine_code = some v) ∧
      (u.engine_code = none → wo'.engine_code = wo.engine_code) ∧
      (∀ v, u.general_notes = some v → wo'.general_notes = v) ∧
      (u.general_notes = none → wo'.general_notes = wo.general_notes) ∧
      (∀ v, u.parts = some v → wo'.parts = v) ∧
      (u.parts = none → wo'.parts = wo.parts) ∧
      (∀ v, u.processes = some v → wo'.processes = v) ∧
      (u.processes = none → wo'.processes = wo.processes) ∧
      (∀ v, u.status_passed = some v → wo'.status_passed = v) ∧
      (u.status_passed = none → wo'.status_passed = wo.status_passed) ∧
      (∀ v, u.status_refused = some v → wo'.status_refused = v) ∧
      (u.status_refused = none → wo'.status_refused = wo.status_refused) ∧
      (∀ v, u.cleaning_price = some v → wo'.cleaning_price = v) ∧
      (u.cleaning_price = none → wo'.cleaning_price = wo.cleaning_price) ∧
      (∀ v, u.reconditioning_price = some v → wo'.reconditioning_price = v) ∧
      (u.reconditioning_price = none → wo'.reconditioning_price = wo.reconditioning_price) ∧
      (∀ v, u.turbo_price = some v → wo'.turbo_price = v) ∧
      (u.turbo_price = none → wo'.turbo_price = wo.turbo_price) ∧
      (∀ v, u.status = some v → wo'.status = v) ∧
      (u.status = none → wo'.status = wo.status) ∧
      (∀ v, u.is_finalized = some v → wo'.is_finalized = v) ∧
      (u.is_finalized = none → wo'.is_finalized = wo.is_finalized) ∧
      (∀ v, u.quote_sent = some v → wo'.quote_sent = v) ∧
      (u.quote_sent = none → wo'.quote_sent = wo.quote_sent) ∧
      (∀ v, u.quote_accepted = some v → wo'.quote_accepted = v) ∧
      (u.quote_accepted = none → wo'.quote_accepted = wo.quote_accepted) ∧
      (∀ v, u.estimated_completion = some v → wo'.estimated_completion = some v) ∧
      (u.estimated_completion = none → wo'.estimated_completion = wo.estimated_completion) ∧
      (∀ v, u.finalized = some v → wo'.finalized = v) ∧
      (u.finalized = none → wo'.finalized = wo.finalized) ∧
      (∀ v, u.client_notified = some v → wo'.client_notified = v) ∧
      (u.client_notified = none → wo'.client_notified = wo.client_notified) ∧
      (∀ v, u.finalized_at = some v → wo'.finalized_at = some v) ∧
      (u.finalized_at = none → wo'.finalized_at = wo.finalized_at) ∧
      (hasAnyField u = true → wo'.updated_at = now) ∧
      (hasAnyField u = false → wo' = wo) := by
  obtain ⟨pre, post, hsplit, hpre, hcaseT, hcaseF⟩ := update_work_order_eq db now woId u wo hfind
  cases hany : hasAnyField u with
  | true =>
    have heq := hcaseT hany
    refine ⟨updFn u now wo, by rw [heq], ?_, ?_, rfl, ?_⟩
    · rw [heq, hsplit]
      simp [updFn, applyUpdateData]
    · simp [updFn, applyUpdateData]
    · repeat'
        first
        | (intro v hv; simp [updFn, applyUpdateData, hv])
        | (intro h; exact Bool.noConfusion h)
        | (intro hv; simp [updFn, applyUpdateData, hv])
        | constructor
  | false =>
    have heq := hcaseF hany
    refine ⟨wo, by rw [heq], by rw [heq], rfl, rfl, ?_⟩
    repeat'
      first
      | (intro v hv; refine absurd hany ?_; simp [hasAnyField, hv])
      | (intro h; exact Bool.noConfusion h)
      | (intro hv; rfl)
      | constructor

/-- Concrete update payload touching one ordinary field. -/
def u6w : WorkOrderUpdate := { turbo_code := some "TX" }

theorem C6_update_protects_number_not_sequence_witness :
    dbW.work_orders.find? (fun r => r.id == "w1") = some woW ∧
    (∃ wo', (update_work_order dbW 9 "w1" u6w).1 = .ok wo' ∧
      (update_work_order dbW 9 "w1" u6w).2.work_orders.map (fun r => r.work_number) =
        dbW.work_orders.map (fun r => r.work_number) ∧
      wo'.work_number = woW.work_number ∧
      wo'.id = woW.id ∧
      (∀ v, u6w.work_sequence = some v → wo'.work_sequence = v) ∧
      (u6w.work_sequence = none → wo'.work_sequence = woW.work_sequence) ∧
      (∀ v, u6w.turbo_code = some v → wo'.turbo_code = v) ∧
      (u6w.turbo_code = none → wo'.turbo_code = woW.turbo_code) ∧
      (∀ v, u6w.car_make = some v → wo'.car_make = v) ∧
      (u6w.car_make = none → wo'.car_make = woW.car_make) ∧
      (∀ v, u6w.car_model = some v → wo'.car_model = v) ∧
      (u6w.car_model = none → wo'.car_model = woW.car_model) ∧
      (∀ v, u6w.car_year = some v → wo'.car_year = some v) ∧
      (u6w.car_year = none → wo'.car_year = woW.car_year) ∧
      (∀ v, u6w.engine_code = some v → wo'.engine_code = some v) ∧
      (u6w.engine_code = none → wo'.engine_code = woW.engine_code) ∧
      (∀ v, u6w.general_notes = some v → wo'.general_notes = v) ∧
      (u6w.general_notes = none → wo'.general_notes = woW.general_notes) ∧
      (∀ v, u6w.parts = some v → wo'.parts = v) ∧
      (u6w.parts = none → wo'.parts = woW.parts) ∧
      (∀ v, u6w.processes = some v → wo'.processes = v) ∧
      (u6w.processes = none → wo'.processes = woW.processes) ∧
      (∀ v, u6w.status_passed = some v → wo'.status_passed = v) ∧
      (u6w.status_passed = none → wo'.status_passed = woW.status_passed) ∧
      (∀ v, u6w.status_refused = some v → wo'.status_refused = v) ∧
      (u6w.status_refused = none → wo'.status_refused = woW.status_refused) ∧
      (∀ v, u6w.cleaning_price = some v → wo'.cleaning_price = v) ∧
      (u6w.cleaning_price = none → wo'.cleaning_price = woW.cleaning_price) ∧
      (∀ v, u6w.reconditioning_price = some v → wo'.reconditioning_price = v) ∧
      (u6w.reconditioning_price = none → wo'.reconditioning_price = woW.reconditioning_price) ∧
      (∀ v, u6w.turbo_price = some v → wo'.turbo_price = v) ∧
      (u6w.turbo_price = none → wo'.turbo_price = woW.turbo_price) ∧
      (∀ v, u6w.status = some v → wo'.status = v) ∧
      (u6w.status = none → wo'.status = woW.status) ∧
      (∀ v, u6w.is_finalized = some v → wo'.is_finalized = v) ∧
      (u6w.is_finalized = none → wo'.is_finalized = woW.is_finalized) ∧
      (∀ v, u6w.quote_sent = some v → wo'.quote_sent = v) ∧
      (u6w.quote_sent = none → wo'.quote_sent = woW.quote_sent) ∧
      (∀ v, u6w.quote_accepted = some v → wo'.quote_accepted = v) ∧
      (u6w.quote_accepted = none → wo'.quote_accepted = woW.quote_accepted) ∧
      (∀ v, u6w.estimated_completion = some v → wo'.estimated_completion = some v) ∧
      (u6w.estimated_completion = none → wo'.estimated_completion = woW.estimated_completion) ∧
      (∀ v, u6w.finalized = some v → wo'.finalized = v) ∧
      (u6w.finalized = none → wo'.finalized = woW.finalized) ∧
      (∀ v, u6w.client_notified = some v → wo'.client_notified = v) ∧
      (u6w.client_notified = none → wo'.client_notified = woW.client_notified) ∧
      (∀ v, u6w.finalized_at = some v → wo'.finalized_at = some v) ∧
      (u6w.finalized_at = none → wo'.finalized_at = woW.finalized_at) ∧
      (hasAnyField u6w = true → wo'.updated_at = 9) ∧
      (hasAnyField u6w = false → wo' = woW)) :=
  ⟨by rfl, C6_update_protects_number_not_sequence dbW 9 "w1" u6w woW (by rfl)⟩

/-- Concrete update payload supplying only `work_sequence`. -/
def u6 : WorkOrderUpdate := { work_sequence := some 42 }

/-- C6 counterexample: at the concrete one-order database, a PUT payload
supplying `work_sequence := 42` does mutate the stored `work_sequence` (3
becomes 42), so update is not free of `work_sequence` mutation as claimed. -/
theorem C6_counterexample :
    (update_work_order dbW 9 "w1" u6).2.work_orders.map (fun r => r.work_sequence) = [42] ∧
    dbW.work_orders.map (fun r => r.work_sequence) = [3] ∧
    (42 : Int) ≠ 3 :=
  ⟨by rfl, by rfl, by decide⟩

/-- C9: the generic update endpoint applies a supplied `is_finalized` (and
`finalized_at`) directly, with no precondition on the record's current state;
as a consequence a PUT can arm or disarm the finalize delete-guard: after
setting the flag true, delete fails with the finalized Conflict, and after
setting it false, delete succeeds. -/
theorem C9_update_sets_finalized_unconditionally (db : DB) (now now2 : Nat)
    (woId : String) (u : WorkOrderUpdate) (wo : WorkOrder) (b : Bool)
    (hfind : db.work_orders.find? (fun r => r.id == woId) = some wo)
    (hub : u.is_finalized = some b) :
    ∃ wo', (update_work_order db now woId u).1 = .ok wo' ∧
      wo'.is_finalized = b ∧
      (∀ t, u.finalized_at = some t → wo'.finalized_at = some t) ∧
      (b = true →
        delete_work_order (update_work_order db now woId u).2 now2 woId =
          (.error ⟨400, "Véglegesített munkalapot nem lehet törölni!"⟩,
            (update_work_order db now woId u).2)) ∧
      (b = false →
        ∃ db', delete_work_order (update_work_order db now woId u).2 now2 woId =
          (.ok "Munkalap törölve és számozás frissítve", db')) := by
  have hp : (wo.id == woId) = true := by
    have h := List.find?_some hfind
    simpa using h
  have hany : hasAnyField u = true := by simp [hasAnyField, hub]
  obtain ⟨pre, post, hsplit, hpre, hcaseT, _⟩ := update_work_order_eq db now woId u wo hfind
  have heq := hcaseT hany
  have hp' : ((updFn u now wo).id == woId) = true := hp
  have hfindS : (pre ++ updFn u now wo :: post).find? (fun r : WorkOrder => r.id == woId) =
      some (updFn u now wo) := by
    rw [find?_append_of_none pre _ hpre]
    exact List.find?_cons_of_pos _ hp'
  have hisf : (updFn u now wo).is_finalized = b := by
    simp [updFn, applyUpdateData, hub]
  refine ⟨updFn u now wo, by rw [heq], hisf, ?_, ?_, ?_⟩
  · intro t ht
    simp [updFn, applyUpdateData, ht]
  · intro hb
    have hisfT : (updFn u now wo).is_finalized = true := by rw [hisf, hb]
    rw [heq]
    simp only [delete_work_order, hfindS, hisfT, if_true]
  · intro hb
    have hisfF : (updFn u now wo).is_finalized = false := by rw [hisf, hb]
    have hdel : deleteOneCount (fun r : WorkOrder => r.id == woId)
        (pre ++ updFn u now wo :: post) = (1, pre ++ post) :=
      deleteOneCount_split _ pre post hpre hp'
    refine ⟨{ db with work_orders := recalculate_sequence_numbers now2 (pre ++ post) }, ?_⟩
    rw [heq]
    simp only [delete_work_order, hfindS, hisfF, Bool.false_eq_true, if_false, hdel]
    norm_num

theorem C9_update_sets_finalized_unconditionally_witness :
    ({ dbW with work_orders := [{ woW with is_finalized := true }] } : DB).work_orders.find?
        (fun r => r.id == "w1") = some { woW with is_finalized := true } ∧
    ({ is_finalized := some false } : WorkOrderUpdate).is_finalized = some false ∧
    (∃ wo', (update_work_order { dbW with work_orders := [{ woW with is_finalized := true }] }
          9 "w1" { is_finalized := some false }).1 = .ok wo' ∧
      wo'.is_finalized = false ∧
      (∀ t, ({ is_finalized := some false } : WorkOrderUpdate).finalized_at = some t →
        wo'.finalized_at = some t) ∧
      (false = true →
        delete_work_order (update_work_order
            { dbW with work_orders := [{ woW with is_finalized := true }] }
            9 "w1" { is_finalized := some false }).2 11 "w1" =
          (.error ⟨400, "Véglegesített munkalapot nem lehet törölni!"⟩,
            (update_work_order { dbW with work_orders := [{ woW with is_finalized := true }] }
              9 "w1" { is_finalized := some false }).2)) ∧
      (false = false →
        ∃ db', delete_work_order (update_work_order
            { dbW with work_orders := [{ woW with is_finalized := true }] }
            9 "w1" { is_finalized := some false }).2 11 "w1" =
          (.ok "Munkalap törölve és számozás frissítve", db'))) :=
  ⟨by rfl, by rfl,
    C9_update_sets_finalized_unconditionally
      { dbW with work_orders := [{ woW with is_finalized := true }] } 9 11 "w1"
      { is_finalized := some false } { woW with is_finalized := true } false
      (by rfl) (by rfl)⟩

/-! ### C4 / C10: the inventory ledger -/

/-- One movement request, whatever its kind or outcome, keeps every item's
stock non-negative: the `stock_after < 0` guard rejects before any write, and
an accepted movement writes exactly the checked `stock_after`. -/
theorem movement_preserves_nonneg (db : DB) (input : InventoryMovementCreate)
    (newId : String) (now : Nat)
    (hinv : ∀ it ∈ db.inventory_items, 0 ≤ it.current_stock) :
    ∀ it ∈ (create_inventory_movement db input newId now).2.inventory_items,
      0 ≤ it.current_stock := by
  intro it hit
  cases hfind : db.inventory_items.find? (fun i => i.id == input.item_id) with
  | none =>
    simp only [create_inventory_movement, hfind] at hit
    exact hinv it hit
  | some item =>
    by_cases hneg : item.current_stock +
        (if input.movement_type == "OUT" && decide (0 < input.quantity) then -input.quantity
         else input.quantity) < 0
    · simp only [create_inventory_movement, hfind, if_pos hneg] at hit
      exact hinv it hit
    · simp only [create_inventory_movement, hfind, if_neg hneg] at hit
      rcases mem_updateOne hit with h | ⟨y, _, rfl⟩
      · exact hinv it h
      · simpa using le_of_not_lt hneg

/-- C4: an OUT movement whose positive quantity exceeds the item's current
stock fails with the 400 insufficient-stock Conflict and the database is
returned exactly as it was (no movement appended, no stock change); and, for
items whose stock starts non-negative, no sequence of movement requests can
drive any stock negative. -/
theorem C4_insufficient_out_and_nonnegativity (db : DB) :
    (∀ (input : InventoryMovementCreate) (newId : String) (now : Nat)
        (item : InventoryItem),
      db.inventory_items.find? (fun it => it.id == input.item_id) = some item →
      input.movement_type = "OUT" →
      0 < input.quantity →
      item.current_stock < input.quantity →
      create_inventory_movement db input newId now =
        (.error ⟨400, "Nincs elegendő készlet. Jelenlegi: " ++ toString item.current_stock ++
          ", kért: " ++ toString input.quantity.natAbs⟩, db)) ∧
    ((∀ it ∈ db.inventory_items, 0 ≤ it.current_stock) →
      ∀ reqs, ∀ it ∈ (processMovements db reqs).inventory_items, 0 ≤ it.current_stock) := by
  constructor
  · intro input newId now item hfind hOut hq hinsuf
    have hcond : (input.movement_type == "OUT" && decide (0 < input.quantity)) = true := by
      simp [hOut, hq]
    have hneg : item.current_stock + -input.quantity < 0 := by omega
    have habs : (-input.quantity).natAbs = input.quantity.natAbs := Int.natAbs_neg _
    simp only [create_inventory_movement, hfind, hcond, if_true, if_pos hneg, habs]
  · intro hinv reqs
    induction reqs generalizing db with
    | nil => exact hinv
    | cons r rs ih =>
      exact ih _ (movement_preserves_nonneg db r.1 r.2.1 r.2.2 hinv)

/-- Concrete inventory item used by witnesses: 5 units in stock. -/
def itemW : InventoryItem :=
  { id := "i1", name := "Geo", code := "GEO-001", current_stock := 5
    created_at := 0, updated_at := 0 }

/-- Concrete inventory database used by witnesses. -/
def dbI : DB := { inventory_items := [itemW] }

/-- Concrete OUT request for more than the available stock. -/
def outBig : InventoryMovementCreate :=
  { item_id := "i1", movement_type := "OUT", quantity := 9, reason := "usage" }

/-- Concrete OUT request within the available stock. -/
def outSmall : InventoryMovementCreate :=
  { item_id := "i1", movement_type := "OUT", quantity := 2, reason := "usage" }

/-- Concrete IN request. -/
def inReq : InventoryMovementCreate :=
  { item_id := "i1", movement_type := "IN", quantity := 3, reason := "purchase" }

theorem C4_insufficient_out_and_nonnegativity_witness :
    (dbI.inventory_items.find? (fun it => it.id == outBig.item_id) = some itemW ∧
      outBig.movement_type = "OUT" ∧ 0 < outBig.quantity ∧
      itemW.current_stock < outBig.quantity ∧
      create_inventory_movement dbI outBig "m1" 3 =
        (.error ⟨400, "Nincs elegendő készlet. Jelenlegi: " ++ toString itemW.current_stock ++
          ", kért: " ++ toString outBig.quantity.natAbs⟩, dbI)) ∧
    ((∀ it ∈ dbI.inventory_items, 0 ≤ it.current_stock) ∧
      ∀ it ∈ (processMovements dbI
          [(outSmall, "m1", 3), (outBig, "m2", 4), (inReq, "m3", 5)]).inventory_items,
        0 ≤ it.current_stock) :=
  ⟨⟨by rfl, by rfl, by decide, by decide,
      (C4_insufficient_out_and_nonnegativity dbI).1 outBig "m1" 3 itemW
        (by rfl) (by rfl) (by decide) (by decide)⟩,
    ⟨by decide,
      (C4_insufficient_out_and_nonnegativity dbI).2 (by decide)
        [(outSmall, "m1", 3), (outBig, "m2", 4), (inReq, "m3", 5)]⟩⟩

/-- C10: an accepted OUT movement with positive requested quantity q is stored
and returned with quantity -q, `stock_before` the item's prior stock and
`stock_after = stock_before - q`; an accepted IN movement keeps quantity q and
has `stock_after = stock_before + q`; in both cases the movement is appended
to the ledger and the item's `current_stock` is set to exactly `stock_after`. -/
theorem C10_movement_snapshots (db : DB) (input : InventoryMovementCreate)
    (newId : String) (now : Nat) (item : InventoryItem)
    (hfind : db.inventory_items.find? (fun it => it.id == input.item_id) = some item)
    (hq : 0 < input.quantity)
    (hstock : 0 ≤ item.current_stock) :
    (input.movement_type = "OUT" → input.quantity ≤ item.current_stock →
      ∃ mv db', create_inventory_movement db input newId now = (.ok mv, db') ∧
        mv.quantity = -input.quantity ∧
        mv.stock_before = item.current_stock ∧
        mv.stock_after = item.current_stock - input.quantity ∧
        db'.inventory_movements = db.inventory_movements ++ [mv] ∧
        db'.inventory_items.find? (fun it => it.id == input.item_id) =
          some { item with current_stock := mv.stock_after, updated_at := now } ∧
        db'.work_orders = db.work_orders) ∧
    (input.movement_type = "IN" →
      ∃ mv db', create_inventory_movement db input newId now = (.ok mv, db') ∧
        mv.quantity = input.quantity ∧
        mv.stock_before = item.current_stock ∧
        mv.stock_after = item.current_stock + input.quantity ∧
        db'.inventory_movements = db.inventory_movements ++ [mv] ∧
        db'.inventory_items.find? (fun it => it.id == input.item_id) =
          some { item with current_stock := mv.stock_after, updated_at := now } ∧
        db'.work_orders = db.work_orders) := by
  have hp : (item.id == input.item_id) = true := by
    have h := List.find?_some hfind
    simpa using h
  constructor
  · intro hOut hsuf
    have hcond : (input.movement_type == "OUT" && decide (0 < input.quantity)) = true := by
      simp [hOut, hq]
    have hnneg : ¬ item.current_stock + -input.quantity < 0 := by omega
    simp only [create_inventory_movement, hfind, hcond, if_true, if_neg hnneg]
    refine ⟨_, _, rfl, rfl, rfl, by simp [Int.sub_eq_add_neg], rfl, ?_, rfl⟩
    exact updateOne_find?_first hfind hp
  · intro hIn
    have hcond : (input.movement_type == "OUT" && decide (0 < input.quantity)) = false := by
      simp [hIn]
    have hnneg : ¬ item.current_stock + input.quantity < 0 := by omega
    simp only [create_inventory_movement, hfind, hcond, Bool.false_eq_true, if_false,
      if_neg hnneg]
    refine ⟨_, _, rfl, rfl, rfl, rfl, rfl, ?_, rfl⟩
    exact updateOne_find?_first hfind hp

theorem C10_movement_snapshots_witness :
    dbI.inventory_items.find? (fun it => it.id == outSmall.item_id) = some itemW ∧
    0 < outSmall.quantity ∧ 0 ≤ itemW.current_stock ∧
    ((outSmall.movement_type = "OUT" → outSmall.quantity ≤ itemW.current_stock →
      ∃ mv db', create_inventory_movement dbI outSmall "m1" 3 = (.ok mv, db') ∧
        mv.quantity = -outSmall.quantity ∧
        mv.stock_before = itemW.current_stock ∧
        mv.stock_after = itemW.current_stock - outSmall.quantity ∧
        db'.inventory_movements = dbI.inventory_movements ++ [mv] ∧
        db'.inventory_items.find? (fun it => it.id == outSmall.item_id) =
          some { itemW with current_stock := mv.stock_after, updated_at := 3 } ∧
        db'.work_orders = dbI.work_orders) ∧
    (outSmall.movement_type = "IN" →
      ∃ mv db', create_inventory_movement dbI outSmall "m1" 3 = (.ok mv, db') ∧
        mv.quantity = outSmall.quantity ∧
        mv.stock_before = itemW.current_stock ∧
        mv.stock_after = itemW.current_stock + outSmall.quantity ∧
        db'.inventory_movements = dbI.inventory_movements ++ [mv] ∧
        db'.inventory_items.find? (fun it => it.id == outSmall.item_id) =
          some { itemW with current_stock := mv.stock_after, updated_at := 3 } ∧
        db'.work_orders = dbI.work_orders)) :=
  ⟨by rfl, by decide, by decide,
    C10_movement_snapshots dbI outSmall "m1" 3 itemW (by rfl) (by decide) (by decide)⟩

/-! ### C8: warning flags in the list projection -/

/-- C8 (amended): every row of the work-order list projection comes from a
stored work order joined with a client whose id matches, and its
`has_turbo_warning` flag is true iff at least one turbo note — active or not —
carries the order's turbo code, and `has_car_warning` is true iff at least one
car note — active or not — matches the order's (car_make, car_model) pair. -/
theorem C8_warning_flags (db : DB) (st? : Option WorkStatus) (cid? : Option String)
    (row : WorkOrderWithDetails)
    (hrow : row ∈ get_work_orders db st? cid?) :
    ∃ wo ∈ db.work_orders, ∃ c ∈ db.clients,
      c.id = wo.client_id ∧
      row = mkListedRow db wo c ∧
      (row.has_turbo_warning = true ↔ ∃ n ∈ db.turbo_notes, n.turbo_code = wo.turbo_code) ∧
      (row.has_car_warning = true ↔
        ∃ n ∈ db.car_notes, n.car_make = wo.car_make ∧ n.car_model = wo.car_model) := by
  simp only [get_work_orders, List.mem_map] at hrow
  obtain ⟨r, hr, hrow⟩ := hrow
  have hr2 : r ∈ (db.work_orders.flatMap
      (fun wo => (db.clients.filter (fun c => c.id == wo.client_id)).map (fun c => (wo, c)))) := by
    have hr3 := List.mem_mergeSort.mp (List.mem_of_mem_take hr)
    rcases cid? with _ | cid
    · rcases st? with _ | st
      · exact hr3
      · exact (List.mem_filter.mp hr3).1
    · rcases st? with _ | st
      · exact (List.mem_filter.mp hr3).1
      · exact (List.mem_filter.mp (List.mem_filter.mp hr3).1).1
  obtain ⟨wo, hwo, hrc⟩ := List.mem_flatMap.mp hr2
  obtain ⟨c, hc, hpair⟩ := List.mem_map.mp hrc
  obtain ⟨hcmem, hcid⟩ := List.mem_filter.mp hc
  refine ⟨wo, hwo, c, hcmem, by simpa using hcid, ?_, ?_, ?_⟩
  · rw [← hrow, ← hpair]
  · rw [← hrow, ← hpair]
    simp [mkListedRow, List.length_pos_iff_exists_mem, List.mem_filter]
  · rw [← hrow, ← hpair]
    simp [mkListedRow, List.length_pos_iff_exists_mem, List.mem_filter]

/-- Concrete work order whose turbo code and car pair match the inactive notes. -/
def wo8 : WorkOrder :=
  { id := "w1", work_number := "00001", work_sequence := 1, client_id := "c1"
    turbo_code := "T", car_make := "BMW", car_model := "X5"
    received_date := 0, created_at := 0, updated_at := 0 }

/-- Concrete INACTIVE turbo note matching `wo8`. -/
def tn8 : TurboNote :=
  { id := "n1", turbo_code := "T", title := "t", description := "d"
    created_at := 0, active := false }

/-- Concrete INACTIVE car note matching `wo8`. -/
def cn8 : CarNote :=
  { id := "n2", car_make := "BMW", car_model := "X5", title := "t", description := "d"
    created_at := 0, active := false }

/-- Concrete database whose only notes are inactive. -/
def db8 : DB :=
  { work_orders := [wo8], clients := [clientW], turbo_notes := [tn8], car_notes := [cn8] }

/-- The concrete list call evaluates to the single row for `wo8`. -/
theorem get_work_orders_db8 :
    get_work_orders db8 none none = [mkListedRow db8 wo8 clientW] := by
  show ((([(wo8, clientW)] : List (WorkOrder × Client)).mergeSort createdDescRow).take
    1000).map (fun r => mkListedRow db8 r.1 r.2) = [mkListedRow db8 wo8 clientW]
  rw [List.mergeSort_singleton]
  rfl

theorem C8_warning_flags_witness :
    mkListedRow db8 wo8 clientW ∈ get_work_orders db8 none none ∧
    (∃ wo ∈ db8.work_orders, ∃ c ∈ db8.clients,
      c.id = wo.client_id ∧
      mkListedRow db8 wo8 clientW = mkListedRow db8 wo c ∧
      ((mkListedRow db8 wo8 clientW).has_turbo_warning = true ↔
        ∃ n ∈ db8.turbo_notes, n.turbo_code = wo.turbo_code) ∧
      ((mkListedRow db8 wo8 clientW).has_car_warning = true ↔
        ∃ n ∈ db8.car_notes, n.car_make = wo.car_make ∧ n.car_model = wo.car_model)) :=
  ⟨by simp [get_work_orders_db8],
    C8_warning_flags db8 none none (mkListedRow db8 wo8 clientW)
      (by simp [get_work_orders_db8])⟩

/-- C8 counterexample: in `db8` the only matching notes are inactive, yet both
warning flags of the single listed row are raised — inactive notes do raise
the flags, contradicting the claim's "active note" qualification. -/
theorem C8_counterexample :
    tn8.active = false ∧ cn8.active = false ∧
    (get_work_orders db8 none none).map
      (fun r => (r.has_turbo_warning, r.has_car_warning)) = [(true, true)] :=
  ⟨rfl, rfl, by rw [get_work_orders_db8]; rfl⟩

/-! ### C1: sequence density and the renumbering pass -/

/-- The list [1, 2, …, N] as integers. -/
def denseTarget (N : Nat) : List Int := (List.range' 1 N).map (fun n : Nat => (n : Int))

/-- Density: the multiset of `work_sequence` values is exactly {1, …, N}. -/
def denseSeq (wos : List WorkOrder) : Prop :=
  ((wos.map (fun r => r.work_sequence) : List Int) : Multiset Int) =
    ((denseTarget wos.length : List Int) : Multiset Int)

/-- With pairwise-distinct ids, `update_one` keyed on a member's id rewrites
exactly that member. -/
theorem updateOne_of_nodup {f : WorkOrder → WorkOrder} {cur : List WorkOrder}
    {w : WorkOrder} (hmem : w ∈ cur) (hnd : (cur.map (fun r => r.id)).Nodup) :
    ∃ pre post, cur = pre ++ w :: post ∧
      updateOne (fun r => r.id == w.id) f cur = pre ++ f w :: post := by
  obtain ⟨pre, post, rfl⟩ := List.append_of_mem hmem
  have hmap : (pre ++ w :: post).map (fun r => r.id) =
      pre.map (fun r => r.id) ++ w.id :: post.map (fun r => r.id) := by simp
  rw [hmap] at hnd
  have hcons := List.nodup_middle.mp hnd
  have hnotin : w.id ∉ pre.map (fun r => r.id) := by
    intro hx
    exact (List.nodup_cons.mp hcons).1 (List.mem_append.mpr (Or.inl hx))
  have hpre : ∀ x ∈ pre, ((fun r : WorkOrder => r.id == w.id) x) = false := by
    intro x hx
    have hne : x.id ≠ w.id := fun hEq => hnotin (hEq ▸ List.mem_map_of_mem _ hx)
    exact beq_false_of_ne hne
  exact ⟨pre, post, rfl, updateOne_split w pre post hpre (by simp)⟩

/-- The renumbering fold rewrites each fetched record once (ids being
pairwise distinct) and leaves any record outside the fetched list alone:
the result is a permutation of the untouched `extra` records together with
the positionally renumbered fetched records. -/
theorem foldl_updateOne_perm (now : Nat) :
    ∀ (L : List (Nat × WorkOrder)) (cur extra : List WorkOrder),
      cur.Perm (extra ++ L.map Prod.snd) →
      (cur.map (fun r => r.id)).Nodup →
      (L.foldl (fun acc iw =>
          updateOne (fun r => r.id == iw.2.id) (renumUpd now iw.1) acc) cur).Perm
        (extra ++ L.map (fun iw => renumUpd now iw.1 iw.2)) := by
  intro L
  induction L with
  | nil =>
    intro cur extra hperm _
    simpa using hperm
  | cons iw L' ih =>
    intro cur extra hperm hnd
    obtain ⟨i, w⟩ := iw
    have hw : w ∈ cur := hperm.mem_iff.mpr (by simp)
    obtain ⟨pre, post, hcur, hupd⟩ :=
      @updateOne_of_nodup (renumUpd now i) cur w hw hnd
    have h1 : cur.Perm (w :: (pre ++ post)) := by
      rw [hcur]
      exact List.perm_middle
    have h2 : (pre ++ post).Perm (extra ++ L'.map Prod.snd) := by
      have ha : (w :: (pre ++ post)).Perm (w :: (extra ++ L'.map Prod.snd)) := by
        refine h1.symm.trans (hperm.trans ?_)
        have hm : ((i, w) :: L').map Prod.snd = w :: L'.map Prod.snd := rfl
        rw [hm]
        exact List.perm_middle
      exact ha.cons_inv
    have hnd1 : ((pre ++ renumUpd now i w :: post).map (fun r => r.id)).Nodup := by
      have hids : (pre ++ renumUpd now i w :: post).map (fun r => r.id) =
          cur.map (fun r => r.id) := by
        rw [hcur]
        simp [renumUpd]
      rw [hids]
      exact hnd
    have hperm1 : (pre ++ renumUpd now i w :: post).Perm
        ((extra ++ [renumUpd now i w]) ++ L'.map Prod.snd) := by
      refine List.perm_middle.trans ?_
      refine (h2.cons (renumUpd now i w)).trans ?_
      refine (@List.perm_middle WorkOrder (renumUpd now i w) extra
        (L'.map Prod.snd)).symm.trans ?_
      exact List.Perm.of_eq (by simp)
    have hrec := ih (pre ++ renumUpd now i w :: post) (extra ++ [renumUpd now i w])
      hperm1 hnd1
    rw [List.foldl_cons]
    rw [show updateOne (fun r => r.id == ((i, w) : Nat × WorkOrder).2.id)
      (renumUpd now ((i, w) : Nat × WorkOrder).1) cur =
        pre ++ renumUpd now i w :: post from hupd]
    refine hrec.trans (List.Perm.of_eq ?_)
    simp

/-- A fold of id-keyed rewrites leaves any projection fixed by the rewrites
unchanged on the whole collection. -/
theorem foldl_updateOne_map_eq {β : Type} (now : Nat) (g : WorkOrder → β)
    (hg : ∀ i x, g (renumUpd now i x) = g x) :
    ∀ (L : List (Nat × WorkOrder)) (cur : List WorkOrder),
      (L.foldl (fun acc iw =>
        updateOne (fun r => r.id == iw.2.id) (renumUpd now iw.1) acc) cur).map g =
        cur.map g := by
  intro L
  induction L with
  | nil => intro cur; rfl
  | cons iw L' ih =>
    intro cur
    rw [List.foldl_cons, ih, map_updateOne_eq g (hg iw.1)]

/-- The renumbering pass does not touch ids. -/
theorem recalculate_map_id (now : Nat) (l : List WorkOrder) :
    (recalculate_sequence_numbers now l).map (fun r => r.id) = l.map (fun r => r.id) := by
  unfold recalculate_sequence_numbers
  exact foldl_updateOne_map_eq now (fun r => r.id) (fun i x => rfl) _ _

/-- The renumbering pass keeps the collection's size. -/
theorem recalculate_length (now : Nat) (l : List WorkOrder) :
    (recalculate_sequence_numbers now l).length = l.length := by
  have h := congrArg List.length (recalculate_map_id now l)
  simpa using h

/-- With at most 1000 surviving records, the driver cap is invisible and the
renumbering pass produces (a permutation of) every survivor renumbered by its
1-based position in `created_at` order. -/
theorem recalculate_perm_of_le (now : Nat) (l : List WorkOrder)
    (hnd : (l.map (fun r => r.id)).Nodup) (hlen : l.length ≤ 1000) :
    (recalculate_sequence_numbers now l).Perm
      ((List.enumFrom 1 (l.mergeSort createdAsc)).map
        (fun iw => renumUpd now iw.1 iw.2)) := by
  unfold recalculate_sequence_numbers
  have htake : (l.mergeSort createdAsc).take 1000 = l.mergeSort createdAsc :=
    List.take_of_length_le (by simpa using hlen)
  rw [htake]
  refine foldl_updateOne_perm now _ l [] ?_ hnd
  rw [List.enumFrom_map_snd]
  simpa using (List.mergeSort_perm l createdAsc).symm

/-- The sequences of the canonical renumbered list are exactly 1, …, M. -/
theorem canonical_map_seq (now : Nat) (m : List WorkOrder) :
    ((List.enumFrom 1 m).map (fun iw => renumUpd now iw.1 iw.2)).map
        (fun r => r.work_sequence) =
      denseTarget m.length := by
  rw [List.map_map]
  have h1 : ((fun r : WorkOrder => r.work_sequence) ∘
      fun iw : Nat × WorkOrder => renumUpd now iw.1 iw.2) =
      (fun n : Nat => (n : Int)) ∘ Prod.fst := rfl
  rw [h1, ← List.map_map, List.enumFrom_map_fst]
  rfl

/-- Density transfers along a permutation with the canonical renumbered list. -/
theorem denseSeq_of_perm_canonical {now : Nat} {m wos : List WorkOrder}
    (hperm : wos.Perm ((List.enumFrom 1 m).map (fun iw => renumUpd now iw.1 iw.2))) :
    denseSeq wos := by
  unfold denseSeq
  have hlen : wos.length = m.length := by
    have h := hperm.length_eq
    simpa using h
  have hmap := hperm.map (fun r => r.work_sequence)
  rw [canonical_map_seq now m] at hmap
  rw [hlen]
  exact Multiset.coe_eq_coe.mpr hmap

/-- Bounds extracted from density: every sequence lies in [1, N], and when the
collection is non-empty some record carries sequence N. -/
theorem denseSeq_bounds {wos : List WorkOrder} (hd : denseSeq wos) :
    (∀ v ∈ wos, 1 ≤ v.work_sequence ∧ v.work_sequence ≤ (wos.length : Int)) ∧
      (wos ≠ [] → ∃ w ∈ wos, w.work_sequence = (wos.length : Int)) := by
  have hperm : (wos.map (fun r => r.work_sequence)).Perm
      (denseTarget wos.length) := Multiset.coe_eq_coe.mp hd
  constructor
  · intro v hv
    have hm : v.work_sequence ∈ denseTarget wos.length :=
      hperm.mem_iff.mp (List.mem_map_of_mem _ hv)
    obtain ⟨k, hk, hke⟩ := List.mem_map.mp hm
    have hkr := List.mem_range'_1.mp hk
    omega
  · intro hne
    have hlenpos : 0 < wos.length := List.length_pos.mpr hne
    have hmem : ((wos.length : Nat) : Int) ∈ denseTarget wos.length :=
      List.mem_map_of_mem _ (List.mem_range'_1.mpr ⟨hlenpos, by omega⟩)
    have hmem2 : ((wos.length : Nat) : Int) ∈ wos.map (fun r => r.work_sequence) :=
      hperm.mem_iff.mpr hmem
    obtain ⟨w, hw, hwe⟩ := List.mem_map.mp hmem2
    exact ⟨w, hw, hwe⟩

/-- Appending a record carrying the freshly computed next sequence preserves
density. -/
theorem denseSeq_append_next (wos : List WorkOrder) (wo : WorkOrder)
    (hdense : denseSeq wos)
    (hseq : wo.work_sequence = get_next_sequence_number wos) :
    denseSeq (wos ++ [wo]) := by
  have hb := denseSeq_bounds hdense
  have hN : get_next_sequence_number wos = (wos.length : Int) + 1 := by
    by_cases hwos : wos = []
    · subst hwos
      simp [get_next_sequence_number]
    · obtain ⟨w, hw, hwe⟩ := hb.2 hwos
      refine get_next_sequence_number_eq ⟨w, hw, hwe⟩ (fun v hv => ?_)
      have h1 := (hb.1 v hv).2
      omega
  unfold denseSeq
  rw [Multiset.coe_eq_coe]
  have hmap : (wos ++ [wo]).map (fun r => r.work_sequence) =
      wos.map (fun r => r.work_sequence) ++ [(wos.length : Int) + 1] := by
    simp [hseq, hN]
  have htail : denseTarget (wos ++ [wo]).length =
      denseTarget wos.length ++ [(wos.length : Int) + 1] := by
    have hlen : (wos ++ [wo]).length = wos.length + 1 := by simp
    rw [hlen]
    unfold denseTarget
    rw [List.range'_1_concat, List.map_append]
    congr 1
    simp
    omega
  rw [hmap, htail]
  exact (Multiset.coe_eq_coe.mp hdense).append_right _

/-- The `$set` document of finalize. -/
def finFn (now : Nat) (r : WorkOrder) : WorkOrder :=
  { r with
    is_finalized := true
    finalized_at := some now
    updated_at := now
    status := WorkStatus.RECEIVED }

/-- The `$set` document of unfinalize. -/
def unfinFn (now : Nat) (r : WorkOrder) : WorkOrder :=
  { r with
    is_finalized := false
    finalized_at := none
    updated_at := now
    status := WorkStatus.DRAFT }

/-- States of the work-order collection reachable from the empty store through
the lifecycle operations: create (with a freshly generated id), delete,
finalize and unfinalize.  The generic partial-update endpoint is deliberately
not part of this lifecycle relation: it can overwrite `work_sequence`
arbitrarily (see the C6 and C9 developments). -/
inductive WOReachable : List WorkOrder → Prop where
  | empty : WOReachable []
  | create (db : DB) (input : WorkOrderCreate) (newId : String) (now today : Nat) :
      WOReachable db.work_orders →
      db.work_orders.all (fun r => !(r.id == newId)) = true →
      WOReachable (create_work_order db input newId now today).2.work_orders
  | delete (db : DB) (now : Nat) (woId : String) :
      WOReachable db.work_orders →
      WOReachable (delete_work_order db now woId).2.work_orders
  | finalize (db : DB) (now : Nat) (woId : String) :
      WOReachable db.work_orders →
      WOReachable (finalize_work_order db now woId).2.work_orders
  | unfinalize (db : DB) (now : Nat) (woId : String) :
      WOReachable db.work_orders →
      WOReachable (unfinalize_work_order db now woId).2.work_orders

/-- The id-column and the density claim are invariant under an id- and
sequence-preserving `update_one`. -/
theorem invariant_updateOne (p : WorkOrder → Bool) (f : WorkOrder → WorkOrder)
    (hid : ∀ x, (f x).id = x.id) (hseq : ∀ x, (f x).work_sequence = x.work_sequence)
    {wos : List WorkOrder}
    (h : (wos.map (fun r => r.id)).Nodup ∧ (wos.length ≤ 1000 → denseSeq wos)) :
    ((updateOne p f wos).map (fun r => r.id)).Nodup ∧
      ((updateOne p f wos).length ≤ 1000 → denseSeq (updateOne p f wos)) := by
  have hids := @map_updateOne_eq WorkOrder String p f (fun r => r.id) hid wos
  have hseqs := @map_updateOne_eq WorkOrder Int p f (fun r => r.work_sequence) hseq wos
  have hlen : (updateOne p f wos).length = wos.length := by
    have h2 := congrArg List.length hids
    simpa using h2
  constructor
  · rw [hids]
    exact h.1
  · intro hl
    have hd := h.2 (by omega)
    unfold denseSeq at hd ⊢
    rw [hseqs, hlen]
    exact hd

/-- Nodup of the survivors' ids after removing the found record. -/
theorem nodup_rest {pre post : List WorkOrder} {wo : WorkOrder}
    (h0 : ((pre ++ wo :: post).map (fun r => r.id)).Nodup) :
    ((pre ++ post).map (fun r => r.id)).Nodup := by
  rw [List.map_append, List.map_cons] at h0
  have h1 := List.nodup_middle.mp h0
  have h2 := (List.nodup_cons.mp h1).2
  rw [List.map_append]
  exact h2

/-- The inductive invariant of the lifecycle: ids are pairwise distinct, and
any state holding at most 1000 work orders is dense. -/
theorem woReachable_invariant {wos : List WorkOrder} (h : WOReachable wos) :
    (wos.map (fun r => r.id)).Nodup ∧ (wos.length ≤ 1000 → denseSeq wos) := by
  induction h with
  | empty => exact ⟨List.nodup_nil, fun _ => rfl⟩
  | create db input newId now today hr hfresh ih =>
    cases hclient : db.clients.find? (fun c => c.id == input.client_id) with
    | none => simpa only [create_work_order, hclient] using ih
    | some c =>
      simp only [create_work_order, hclient]
      constructor
      · rw [List.map_append, List.nodup_append]
        refine ⟨ih.1, by simp, ?_⟩
        intro a ha hb
        obtain ⟨r, hrmem, rfl⟩ := List.mem_map.mp ha
        have hfr := List.all_eq_true.mp hfresh r hrmem
        have hne : r.id ≠ newId := ne_of_beq_false (by simpa using hfr)
        simp only [List.map_cons, List.map_nil, List.mem_singleton] at hb
        exact hne hb
      · intro hlen
        rw [List.length_append] at hlen
        have hd := ih.2 (by simp at hlen; omega)
        exact denseSeq_append_next db.work_orders _ hd rfl
  | delete db now woId hr ih =>
    cases hfind : db.work_orders.find? (fun r => r.id == woId) with
    | none => simpa only [delete_work_order, hfind] using ih
    | some wo =>
      cases hfin : wo.is_finalized with
      | true => simpa only [delete_work_order, hfind, hfin, if_true] using ih
      | false =>
        obtain ⟨pre, post, hsplit, hpre⟩ := find?_split hfind
        have hp : (wo.id == woId) = true := by
          have h2 := List.find?_some hfind
          simpa using h2
        have hdel : deleteOneCount (fun r => r.id == woId) db.work_orders =
            (1, pre ++ post) := by
          rw [hsplit]
          exact deleteOneCount_split wo pre post hpre hp
        have hres : (delete_work_order db now woId).2.work_orders =
            recalculate_sequence_numbers now (pre ++ post) := by
          simp only [delete_work_order, hfind, hfin, Bool.false_eq_true, if_false, hdel]
          norm_num
        rw [hres]
        have hndrest : ((pre ++ post).map (fun r => r.id)).Nodup :=
          nodup_rest (hsplit ▸ ih.1)
        refine ⟨?_, ?_⟩
        · rw [recalculate_map_id]
          exact hndrest
        · intro hlen
          rw [recalculate_length] at hlen
          exact denseSeq_of_perm_canonical
            (recalculate_perm_of_le now (pre ++ post) hndrest hlen)
  | finalize db now woId hr ih =>
    cases hfind : db.work_orders.find? (fun r => r.id == woId) with
    | none => simpa only [finalize_work_order, hfind] using ih
    | some wo =>
      cases hfin : wo.is_finalized with
      | true => simpa only [finalize_work_order, hfind, hfin, if_true] using ih
      | false =>
        have hres : (finalize_work_order db now woId).2.work_orders =
            updateOne (fun r => r.id == woId) (finFn now) db.work_orders := by
          simp only [finalize_work_order, hfind, hfin, Bool.false_eq_true, if_false]
          split <;> rfl
        rw [hres]
        exact invariant_updateOne (fun r => r.id == woId) (finFn now)
          (fun x => rfl) (fun x => rfl) ih
  | unfinalize db now woId hr ih =>
    cases hfind : db.work_orders.find? (fun r => r.id == woId) with
    | none => simpa only [unfinalize_work_order, hfind] using ih
    | some wo =>
      have hres : (unfinalize_work_order db now woId).2.work_orders =
          updateOne (fun r => r.id == woId) (unfinFn now) db.work_orders := by
        simp only [unfinalize_work_order, hfind]
        split <;> rfl
      rw [hres]
      exact invariant_updateOne (fun r => r.id == woId) (unfinFn now)
        (fun x => rfl) (fun x => rfl) ih

/-- C1 (amended): along the lifecycle operations from an empty store, every
state holding at most 1000 work orders is dense (`sort(work_sequence) =
[1..N]`); and deleting any non-finalized order from a state with at most 1001
orders succeeds and produces exactly the survivors renumbered by their 1-based
position in `created_at` ascending order, with padded work numbers and
refreshed `updated_at` — in particular density holds over the N-1 survivors.
(The 1000-record driver cap in the renumbering fetch makes both bounds
necessary: see the counterexample at 1002 orders.) -/
theorem C1_density_and_delete_renumbering (db : DB)
    (hreach : WOReachable db.work_orders) :
    (db.work_orders.length ≤ 1000 → denseSeq db.work_orders) ∧
    (∀ (now : Nat) (woId : String) (wo : WorkOrder),
      db.work_orders.find? (fun r => r.id == woId) = some wo →
      wo.is_finalized = false →
      db.work_orders.length ≤ 1001 →
      ∃ wos', delete_work_order db now woId =
          (.ok "Munkalap törölve és számozás frissítve", { db with work_orders := wos' }) ∧
        wos'.Perm ((List.enumFrom 1
            (((deleteOneCount (fun r => r.id == woId) db.work_orders).2).mergeSort
              createdAsc)).map (fun iw => renumUpd now iw.1 iw.2)) ∧
        denseSeq wos') := by
  have hinv := woReachable_invariant hreach
  refine ⟨hinv.2, ?_⟩
  intro now woId wo hfind hnf hlen
  obtain ⟨pre, post, hsplit, hpre⟩ := find?_split hfind
  have hp : (wo.id == woId) = true := by
    have h2 := List.find?_some hfind
    simpa using h2
  have hdel : deleteOneCount (fun r => r.id == woId) db.work_orders = (1, pre ++ post) := by
    rw [hsplit]
    exact deleteOneCount_split wo pre post hpre hp
  have hndrest : ((pre ++ post).map (fun r => r.id)).Nodup :=
    nodup_rest (hsplit ▸ hinv.1)
  have hlenrest : (pre ++ post).length ≤ 1000 := by
    have h3 : db.work_orders.length = (pre ++ post).length + 1 := by
      rw [hsplit]
      simp only [List.length_append, List.length_cons]
      omega
    omega
  have hperm := recalculate_perm_of_le now (pre ++ post) hndrest hlenrest
  refine ⟨recalculate_sequence_numbers now (pre ++ post), ?_, ?_, ?_⟩
  · simp only [delete_work_order, hfind, hnf, Bool.false_eq_true, if_false, hdel]
    norm_num
  · rw [hdel]
    exact hperm
  · exact denseSeq_of_perm_canonical hperm

/-- Concrete database used by the C1 witness: one client, no orders. -/
def db0W : DB := { clients := [clientW] }

/-- The state after one creation. -/
def db1W : DB := (create_work_order db0W inputW "a" 1 1).2

/-- The record produced by that creation. -/
def woA : WorkOrder :=
  { id := "a", work_number := "00001", work_sequence := 1, client_id := "c1"
    turbo_code := "T2", received_date := 1, created_at := 1, updated_at := 1 }

theorem db1W_work_orders : db1W.work_orders = [woA] := by
  show (create_work_order db0W inputW "a" 1 1).2.work_orders = [woA]
  have hc : db0W.clients.find? (fun c => c.id == inputW.client_id) = some clientW := rfl
  have hs : get_next_sequence_number db0W.work_orders = 1 := by
    show get_next_sequence_number [] = 1
    simp [get_next_sequence_number]
  simp only [create_work_order, hc, hs]
  rfl

theorem C1_density_and_delete_renumbering_witness :
    WOReachable db1W.work_orders ∧
    db1W.work_orders.find? (fun r => r.id == "a") = some woA ∧
    woA.is_finalized = false ∧
    db1W.work_orders.length ≤ 1001 ∧
    (db1W.work_orders.length ≤ 1000 → denseSeq db1W.work_orders) ∧
    (∃ wos', delete_work_order db1W 9 "a" =
        (.ok "Munkalap törölve és számozás frissítve", { db1W with work_orders := wos' }) ∧
      wos'.Perm ((List.enumFrom 1
          (((deleteOneCount (fun r => r.id == "a") db1W.work_orders).2).mergeSort
            createdAsc)).map (fun iw => renumUpd 9 iw.1 iw.2)) ∧
      denseSeq wos') :=
  have hr : WOReachable db1W.work_orders :=
    WOReachable.create db0W inputW "a" 1 1 WOReachable.empty rfl
  have hfind : db1W.work_orders.find? (fun r => r.id == "a") = some woA := by
    rw [db1W_work_orders]
    rfl
  have hlen : db1W.work_orders.length ≤ 1001 := by
    rw [db1W_work_orders]
    simp
  ⟨hr, hfind, rfl, hlen,
    (C1_density_and_delete_renumbering db1W hr).1,
    (C1_density_and_delete_renumbering db1W hr).2 9 "a" woA hfind rfl hlen⟩

/-! ### C1 counterexample: densities break beyond the 1000-record fetch cap -/

/-- Injective id supply for the big state. -/
def xId (n : Nat) : String := String.mk (List.replicate n 'x')

/-- Creation payload used to build the big state. -/
def inputC : WorkOrderCreate := { client_id := "c1", turbo_code := "T" }

/-- The n-th record of the big state, exactly as the n-th create builds it. -/
def mkRec (n : Nat) : WorkOrder :=
  { id := xId n
    work_number := pythonFmt05 ((n : Int) + 1)
    work_sequence := (n : Int) + 1
    client_id := "c1"
    turbo_code := "T"
    received_date := n
    created_at := n
    updated_at := n }

/-- The state after n creations. -/
def mkState (n : Nat) : List WorkOrder := (List.range n).map mkRec

/-- The database after n creations. -/
def creationDB (n : Nat) : DB := { work_orders := mkState n, clients := [clientW] }

theorem xId_injective : Function.Injective xId := by
  intro a b h
  have h3 : List.replicate a 'x' = List.replicate b 'x' := congrArg String.data h
  have h4 := congrArg List.length h3
  simpa using h4

theorem get_next_mkState (n : Nat) :
    get_next_sequence_number (mkState n) = (n : Int) + 1 := by
  cases n with
  | zero =>
    show get_next_sequence_number [] = ((0 : Nat) : Int) + 1
    simp [get_next_sequence_number]
  | succ m =>
    apply get_next_sequence_number_eq
    · refine ⟨mkRec m, List.mem_map_of_mem _ (List.mem_range.mpr (Nat.lt_succ_self m)), ?_⟩
      show (m : Int) + 1 = ((m + 1 : Nat) : Int)
      push_cast
      ring
    · intro v hv
      obtain ⟨i, hi, rfl⟩ := List.mem_map.mp hv
      have hilt := List.mem_range.mp hi
      show (i : Int) + 1 ≤ ((m + 1 : Nat) : Int)
      push_cast
      omega

theorem create_mkState_step (n : Nat) :
    create_work_order (creationDB n) inputC (xId n) n n =
      (.ok (mkRec n), creationDB (n + 1)) := by
  have hc : (creationDB n).clients.find? (fun c => c.id == inputC.client_id) =
      some clientW := rfl
  have hs : get_next_sequence_number (creationDB n).work_orders = (n : Int) + 1 :=
    get_next_mkState n
  have hm : mkState n ++ [mkRec n] = mkState (n + 1) := by
    unfold mkState
    rw [List.range_succ, List.map_append]
    rfl
  simp only [create_work_order, hc, hs]
  show (Except.ok (mkRec n), { creationDB n with work_orders := mkState n ++ [mkRec n] }) =
    (Except.ok (mkRec n), creationDB (n + 1))
  rw [hm]
  rfl

theorem reach_mkState : ∀ n, WOReachable (mkState n) := by
  intro n
  induction n with
  | zero => exact WOReachable.empty
  | succ m ih =>
    have hfresh : (creationDB m).work_orders.all (fun r => !(r.id == xId m)) = true := by
      rw [List.all_eq_true]
      intro r hr
      obtain ⟨i, hi, rfl⟩ := List.mem_map.mp hr
      have hilt := List.mem_range.mp hi
      have hne : (mkRec i).id ≠ xId m := by
        intro hEq
        have h2 := xId_injective hEq
        omega
      simpa using hne
    have h := WOReachable.create (creationDB m) inputC (xId m) m m ih hfresh
    rw [create_mkState_step m] at h
    exact h

theorem mkState_dense (n : Nat) : denseSeq (mkState n) := by
  unfold denseSeq
  have h1 : (mkState n).map (fun r => r.work_sequence) =
      (List.range n).map (fun i : Nat => (i : Int) + 1) := by
    unfold mkState
    rw [List.map_map]
    apply List.map_congr_left
    intro a ha
    rfl
  have h2 : denseTarget (mkState n).length =
      (List.range n).map (fun i : Nat => (i : Int) + 1) := by
    unfold denseTarget mkState
    rw [List.length_map, List.length_range, List.range'_eq_map_range, List.map_map]
    apply List.map_congr_left
    intro a ha
    show (((1 + a : Nat) : Nat) : Int) = (a : Int) + 1
    push_cast
    ring
  rw [h1, h2]

/-- The 1001 survivors after deleting the first record of the big state. -/
def rest1001 : List WorkOrder := (List.range 1001).map (fun i => mkRec (i + 1))

/-- The first 1000 survivors: all the renumbering pass ever fetches. -/
def take1000 : List WorkOrder := (List.range 1000).map (fun i => mkRec (i + 1))

theorem mkState_1002_cons : mkState 1002 = mkRec 0 :: rest1001 := by
  unfold mkState rest1001
  rw [List.range_succ_eq_map, List.map_cons, List.map_map]
  congr 1

theorem rest1001_split : rest1001 = take1000 ++ [mkRec 1001] := by
  unfold rest1001 take1000
  rw [List.range_succ, List.map_append]
  congr 1

set_option maxRecDepth 10000 in
theorem hfind1002 : (mkState 1002).find? (fun r => r.id == xId 0) = some (mkRec 0) := by
  rw [mkState_1002_cons]
  exact List.find?_cons_of_pos _ (by rfl)

set_option maxRecDepth 10000 in
theorem hdel1002 :
    deleteOneCount (fun r => r.id == xId 0) (mkState 1002) = (1, rest1001) := by
  rw [mkState_1002_cons]
  exact deleteOneCount_split (mkRec 0) [] rest1001 (by simp) (by rfl)

set_option maxRecDepth 10000 in
theorem rest1001_sorted : rest1001.mergeSort createdAsc = rest1001 := by
  apply List.mergeSort_of_sorted
  unfold rest1001
  refine List.Pairwise.map _ ?_ (List.pairwise_lt_range 1001)
  intro a b hab
  simp only [createdAsc, mkRec, decide_eq_true_eq]
  omega

set_option maxRecDepth 10000 in
theorem delete_1002 : delete_work_order (creationDB 1002) 5000 (xId 0) =
    (.ok "Munkalap törölve és számozás frissítve",
      { creationDB 1002 with work_orders := recalculate_sequence_numbers 5000 rest1001 }) := by
  have hf : (creationDB 1002).work_orders.find? (fun r => r.id == xId 0) =
      some (mkRec 0) := hfind1002
  have hd : deleteOneCount (fun r => r.id == xId 0) (creationDB 1002).work_orders =
      (1, rest1001) := hdel1002
  have hnf : (mkRec 0).is_finalized = false := rfl
  simp only [delete_work_order, hf, hnf, Bool.false_eq_true, if_false, hd]
  norm_num

set_option maxRecDepth 10000 in
theorem recalc_1002_perm : (recalculate_sequence_numbers 5000 rest1001).Perm
    ([mkRec 1001] ++ (List.enumFrom 1 take1000).map (fun iw => renumUpd 5000 iw.1 iw.2)) := by
  unfold recalculate_sequence_numbers
  have htl : take1000.length = 1000 := by
    unfold take1000
    simp
  rw [rest1001_sorted, rest1001_split, List.take_left' htl]
  refine foldl_updateOne_perm 5000 _ rest1001 [mkRec 1001] ?_ ?_
  · rw [List.enumFrom_map_snd, rest1001_split]
    exact List.perm_append_comm
  · unfold rest1001
    rw [List.map_map]
    refine List.Nodup.map ?_ (List.nodup_range 1001)
    intro a b hab
    have h2 := xId_injective hab
    omega

set_option maxRecDepth 10000 in
/-- C1 counterexample: the state after 1002 creations is reachable and dense,
its first order is not finalized, yet deleting it — although the endpoint
reports success — leaves the surviving 1001 orders NOT dense: the renumbering
pass fetches at most 1000 documents, so the 1001st survivor keeps its stale
sequence 1002.  This refutes the claim's unconditional density after deletion
(and its unconditional density invariant, since the resulting state is
reachable). -/
theorem C1_counterexample :
    WOReachable (creationDB 1002).work_orders ∧
    denseSeq (creationDB 1002).work_orders ∧
    (creationDB 1002).work_orders.find? (fun r => r.id == xId 0) = some (mkRec 0) ∧
    (mkRec 0).is_finalized = false ∧
    (delete_work_order (creationDB 1002) 5000 (xId 0)).1 =
      .ok "Munkalap törölve és számozás frissítve" ∧
    WOReachable (delete_work_order (creationDB 1002) 5000 (xId 0)).2.work_orders ∧
    ¬ denseSeq (delete_work_order (creationDB 1002) 5000 (xId 0)).2.work_orders := by
  refine ⟨reach_mkState 1002, mkState_dense 1002, hfind1002, rfl, ?_, ?_, ?_⟩
  · rw [delete_1002]
  · exact WOReachable.delete (creationDB 1002) 5000 (xId 0) (reach_mkState 1002)
  · intro hd
    have hres : (delete_work_order (creationDB 1002) 5000 (xId 0)).2.work_orders =
        recalculate_sequence_numbers 5000 rest1001 := by
      rw [delete_1002]
    rw [hres] at hd
    have hmem : mkRec 1001 ∈ recalculate_sequence_numbers 5000 rest1001 :=
      recalc_1002_perm.mem_iff.mpr (by simp)
    have hb := (denseSeq_bounds hd).1 (mkRec 1001) hmem
    have hlen : (recalculate_sequence_numbers 5000 rest1001).length = 1001 := by
      rw [recalculate_length]
      unfold rest1001
      simp
    rw [hlen] at hb
    have hseq : (mkRec 1001).work_sequence = 1002 := by norm_num [mkRec]
    rw [hseq] at hb
    omega

end TurboServer
